import Mathlib

/-!
Shallow embedding of the wltr.scraper crawler / filter / state core
(`src/scraper/src/App.tsx`: main scraper, lines 941-1642, and the
exploratory scraper, lines 472-940), together with theorems settling the
spec claims.

JavaScript numbers are modelled by `JSNum`: the IEEE special values NaN,
+Infinity and -Infinity, plus finite values represented exactly as
integer fractions (`JQ`, an `Int` numerator over a `Nat` denominator that
is positive for every value the program constructs). All claim-relevant
arithmetic (integer thresholds, short decimal literals, multiplication by
1000 / 1000000, division of such values) is exact in IEEE doubles, so the
exact-fraction model agrees with the source on every input that matters;
negative zero is collapsed onto zero, which is sound because the source
only ever consumes numbers through `<` and `=== 0`, where -0 behaves
exactly as 0. `JQ.toRat` maps a fraction to its rational denotation and
is used only in specification statements, never in the executable model.

String values are processed as their character lists, mirroring the
JavaScript string methods used by the source (`replace` with a character
class, `trim`, `includes`, `toUpperCase`, `endsWith`) character by
character.
-/

/-- An exact fraction: the value of a finite JavaScript number. Every
fraction built by the model has a positive denominator. -/
structure JQ where
  num : Int
  den : Nat
deriving DecidableEq, Repr

/-- The fraction `n / 1`. -/
def JQ.ofInt (n : Int) : JQ := ⟨n, 1⟩

/-- Rational denotation of a fraction (specification only). -/
def JQ.toRat (q : JQ) : Rat := (q.num : Rat) / (q.den : Rat)

/-- Well-formedness: the denominator is positive. -/
def JQ.posDen (q : JQ) : Prop := 0 < q.den

/-- Fraction addition. -/
def qAdd (a b : JQ) : JQ := ⟨a.num * (b.den : Int) + b.num * (a.den : Int), a.den * b.den⟩

/-- Fraction subtraction. -/
def qSub (a b : JQ) : JQ := ⟨a.num * (b.den : Int) - b.num * (a.den : Int), a.den * b.den⟩

/-- Fraction multiplication. -/
def qMul (a b : JQ) : JQ := ⟨a.num * b.num, a.den * b.den⟩

/-- Fraction division (callers only divide by fractions with nonzero
numerator; the result keeps a positive denominator). -/
def qDiv (a b : JQ) : JQ :=
  if 0 ≤ b.num then ⟨a.num * (b.den : Int), a.den * b.num.natAbs⟩
  else ⟨-(a.num * (b.den : Int)), a.den * b.num.natAbs⟩

/-- Fraction negation. -/
def qNegate (a : JQ) : JQ := ⟨-a.num, a.den⟩

/-- `a < b` by cross multiplication (valid for positive denominators). -/
def qLt (a b : JQ) : Bool := decide (a.num * (b.den : Int) < b.num * (a.den : Int))

/-- `a = b` by cross multiplication (valid for positive denominators). -/
def qEq (a b : JQ) : Bool := decide (a.num * (b.den : Int) = b.num * (a.den : Int))

/-- Whether the fraction is zero (valid for positive denominators). -/
def qIsZero (a : JQ) : Bool := decide (a.num = 0)

/-- Whether the fraction is strictly positive (valid for positive denominators). -/
def qIsPos (a : JQ) : Bool := decide (0 < a.num)

/-- Whether the fraction is strictly negative (valid for positive denominators). -/
def qIsNeg (a : JQ) : Bool := decide (a.num < 0)

/-- A JavaScript number: NaN, +Infinity, -Infinity, or a finite value. -/
inductive JSNum where
  | nan : JSNum
  | pinf : JSNum
  | ninf : JSNum
  | fin : JQ → JSNum
deriving DecidableEq, Repr

/-- Well-formedness of a JavaScript number: a finite value has a positive
denominator. -/
def JSNum.wf : JSNum → Prop
  | .fin q => q.posDen
  | _ => True

/-- JavaScript subtraction `a - b`. -/
def jsSub : JSNum → JSNum → JSNum
  | .nan, _ => .nan
  | _, .nan => .nan
  | .pinf, .pinf => .nan
  | .pinf, _ => .pinf
  | .ninf, .ninf => .nan
  | .ninf, _ => .ninf
  | .fin _, .pinf => .ninf
  | .fin _, .ninf => .pinf
  | .fin a, .fin b => .fin (qSub a b)

/-- JavaScript division `a / b`: a nonzero finite value divided by zero
yields a signed infinity and `0 / 0` yields NaN — never an exception. -/
def jsDiv : JSNum → JSNum → JSNum
  | .nan, _ => .nan
  | _, .nan => .nan
  | .pinf, .pinf => .nan
  | .pinf, .ninf => .nan
  | .ninf, .pinf => .nan
  | .ninf, .ninf => .nan
  | .pinf, .fin b => if qIsNeg b then .ninf else .pinf
  | .ninf, .fin b => if qIsNeg b then .pinf else .ninf
  | .fin _, .pinf => .fin (JQ.ofInt 0)
  | .fin _, .ninf => .fin (JQ.ofInt 0)
  | .fin a, .fin b =>
      if qIsZero b then (if qIsPos a then .pinf else if qIsNeg a then .ninf else .nan)
      else .fin (qDiv a b)

/-- JavaScript multiplication `a * b`. -/
def jsMul : JSNum → JSNum → JSNum
  | .nan, _ => .nan
  | _, .nan => .nan
  | .pinf, .pinf => .pinf
  | .pinf, .ninf => .ninf
  | .ninf, .pinf => .ninf
  | .ninf, .ninf => .pinf
  | .pinf, .fin b => if qIsZero b then .nan else if qIsNeg b then .ninf else .pinf
  | .ninf, .fin b => if qIsZero b then .nan else if qIsNeg b then .pinf else .ninf
  | .fin a, .pinf => if qIsZero a then .nan else if qIsNeg a then .ninf else .pinf
  | .fin a, .ninf => if qIsZero a then .nan else if qIsNeg a then .pinf else .ninf
  | .fin a, .fin b => .fin (qMul a b)

/-- JavaScript `a < b`: every comparison involving NaN is false. -/
def jsLt : JSNum → JSNum → Bool
  | .nan, _ => false
  | _, .nan => false
  | .ninf, .ninf => false
  | .ninf, _ => true
  | _, .ninf => false
  | .pinf, _ => false
  | .fin _, .pinf => true
  | .fin a, .fin b => qLt a b

/-- JavaScript `a === b` on numbers: NaN equals nothing, finite values
compare by numeric value. -/
def jsEqNum : JSNum → JSNum → Bool
  | .nan, _ => false
  | _, .nan => false
  | .pinf, .pinf => true
  | .pinf, _ => false
  | _, .pinf => false
  | .ninf, .ninf => true
  | .ninf, _ => false
  | _, .ninf => false
  | .fin a, .fin b => qEq a b

/-- Numeric value of a decimal digit character. -/
def digitVal (c : Char) : Nat := c.toNat - '0'.toNat

/-- Natural number denoted by a list of decimal digit characters. -/
def natOfDigits (ds : List Char) : Nat := ds.foldl (fun n c => n * 10 + digitVal c) 0

/-- JavaScript `parseFloat` on a character list, restricted to the
fragment reachable in this program: leading whitespace, an optional sign,
then the longest prefix of the shape `digits`, `digits.digits`,
`.digits` or `digits.`; no valid prefix yields NaN. (Exponent notation
and the `Infinity` literal never occur here: every string this program
feeds to `parseFloat` is drawn from the alphabet `0-9 . M K k`.) -/
def jsParseFloat (cs : List Char) : JSNum :=
  let cs := cs.dropWhile Char.isWhitespace
  let signed : Bool × List Char :=
    match cs with
    | '-' :: rest => (true, rest)
    | '+' :: rest => (false, rest)
    | _ => (false, cs)
  let intDs := signed.2.takeWhile Char.isDigit
  let rest := signed.2.dropWhile Char.isDigit
  let fracDs : List Char :=
    match rest with
    | '.' :: rest2 => rest2.takeWhile Char.isDigit
    | _ => []
  if intDs.isEmpty && fracDs.isEmpty then JSNum.nan
  else
    let v := qAdd (JQ.ofInt (natOfDigits intDs))
                  (qDiv (JQ.ofInt (natOfDigits fracDs)) (JQ.ofInt ((10 : Int) ^ fracDs.length)))
    JSNum.fin (if signed.1 then qNegate v else v)

/-- Numeric value of a hexadecimal digit character, if it is one. -/
def hexDigitVal (c : Char) : Option Nat :=
  if c.isDigit then some (digitVal c)
  else if 'a' ≤ c ∧ c ≤ 'f' then some (c.toNat - 'a'.toNat + 10)
  else if 'A' ≤ c ∧ c ≤ 'F' then some (c.toNat - 'A'.toNat + 10)
  else none

/-- Whether a character is a hexadecimal digit. -/
def isHexDigitChar (c : Char) : Bool := (hexDigitVal c).isSome

/-- Natural number denoted by a list of hexadecimal digit characters. -/
def natOfHexDigits (ds : List Char) : Nat :=
  ds.foldl (fun n c => n * 16 + (hexDigitVal c).getD 0) 0

/-- JavaScript `parseInt` with no radix argument: leading whitespace, an
optional sign, then either a `0x` / `0X` prefix with hexadecimal digits
or a run of decimal digits, ignoring everything after the run; `none`
models NaN. -/
def jsParseInt (cs : List Char) : Option Int :=
  let cs := cs.dropWhile Char.isWhitespace
  let signed : Bool × List Char :=
    match cs with
    | '-' :: rest => (true, rest)
    | '+' :: rest => (false, rest)
    | _ => (false, cs)
  let core : Option Nat :=
    match signed.2 with
    | '0' :: c :: rest =>
        if c = 'x' ∨ c = 'X' then
          let hx := rest.takeWhile isHexDigitChar
          if hx.isEmpty then none else some (natOfHexDigits hx)
        else
          let ds := ('0' :: c :: rest).takeWhile Char.isDigit
          some (natOfDigits ds)
    | l =>
        let ds := l.takeWhile Char.isDigit
        if ds.isEmpty then none else some (natOfDigits ds)
  core.map (fun n => if signed.1 then -(n : Int) else (n : Int))

/-- `NaN < k` is false in JavaScript: comparison of a `parseInt` result
against a threshold, where `none` models NaN. -/
def jsLtInt (v : Option Int) (k : Int) : Bool :=
  match v with
  | none => false
  | some x => decide (x < k)

/-- ASCII uppercasing of one character, as `String.prototype.toUpperCase`
acts on the characters occurring here. -/
def asciiUpper (c : Char) : Char :=
  if 'a' ≤ c ∧ c ≤ 'z' then Char.ofNat (c.toNat - 32) else c

/-- JavaScript `trim`: strip whitespace from both ends. -/
def jsTrim (cs : List Char) : List Char :=
  ((cs.dropWhile Char.isWhitespace).reverse.dropWhile Char.isWhitespace).reverse

/-- JavaScript `includes(c)` for a single character. -/
def jsIncludesChar (cs : List Char) (c : Char) : Bool := cs.contains c

/-- JavaScript `endsWith(c)` for a single-character suffix. -/
def jsEndsWithChar (cs : List Char) (c : Char) : Bool :=
  match cs.getLast? with
  | some d => d = c
  | none => false

/-- `raw.replace(/[^0-9MKk.]/g, '')` (App.tsx:1342, 1352, 1393): keep only
decimal digits, the dot, uppercase `M`, uppercase `K` and lowercase `k`;
note that lowercase `m` is NOT in the kept class. -/
def cleanNumeric (cs : List Char) : List Char :=
  cs.filter (fun c => c.isDigit || c = '.' || c = 'M' || c = 'K' || c = 'k')

/-- The metric-parsing block (App.tsx:1344-1349 and twins): `parseFloat`
on the cleaned text, then multiply by 1,000,000 if the cleaned text
uppercased ends with `M`, else by 1,000 if it ends with `K`. -/
def parseSuffixed (raw : String) : JSNum :=
  let clean := cleanNumeric raw.toList
  let v := jsParseFloat clean
  if jsEndsWithChar (clean.map asciiUpper) 'M' then jsMul v (JSNum.fin (JQ.ofInt 1000000))
  else if jsEndsWithChar (clean.map asciiUpper) 'K' then jsMul v (JSNum.fin (JQ.ofInt 1000))
  else v

/-- A metric reading `(await span.textContent()) || '0'` (App.tsx:1341,
1351, 1392) followed by the clean / parseFloat / suffix block; `none`
models a null `textContent`, and the empty string is falsy in JavaScript,
so both fall back to `'0'`. -/
def parseMetricText (text : Option String) : JSNum :=
  parseSuffixed
    (match text with
     | none => "0"
     | some s => if s = "" then "0" else s)

/-- `((revenueDollars - spentDollars) / spentDollars) * 100` (App.tsx:1404,
exploratory twin at 795). -/
def roiOf (revenue spent : JSNum) : JSNum :=
  jsMul (jsDiv (jsSub revenue spent) spent) (JSNum.fin (JQ.ofInt 100))

/-- The seven trade-age buckets of the Trade-Timing Classifier
(App.tsx:1430-1446). -/
inductive Bucket where
  | seconds | lessThan30m | moreThan30m | lessThan2h | moreThan2h | days | weeks
deriving DecidableEq, Repr

/-- The classification branch chain of the trade-age loop
(App.tsx:1454-1483): the trimmed age text is tested for the letters
`s`, `m`, `h`, `d`, `w` in that fixed order and only the first match
counts; minute and hour values are further split at 30 and 2 via
`parseInt`; text matching no branch is counted in no bucket (`none`). -/
def classifyAge (raw : String) : Option Bucket :=
  let t := jsTrim raw.toList
  if jsIncludesChar t 's' then some .seconds
  else if jsIncludesChar t 'm' then
    if jsLtInt (jsParseInt t) 30 then some .lessThan30m else some .moreThan30m
  else if jsIncludesChar t 'h' then
    if jsLtInt (jsParseInt t) 2 then some .lessThan2h else some .moreThan2h
  else if jsIncludesChar t 'd' then some .days
  else if jsIncludesChar t 'w' then some .weeks
  else none

/-- The `timeGroups` record: one list of trimmed age texts per bucket. -/
structure TimeGroups where
  seconds : List String
  lessThan30m : List String
  moreThan30m : List String
  lessThan2h : List String
  moreThan2h : List String
  days : List String
  weeks : List String
deriving DecidableEq, Repr

/-- The empty `timeGroups` record (App.tsx:1438-1446). -/
def emptyTimeGroups : TimeGroups := ⟨[], [], [], [], [], [], []⟩

/-- One iteration of the age-classification loop: push the trimmed text
onto the bucket its branch selects, or drop it if no branch matches. -/
def classifyInto (g : TimeGroups) (raw : String) : TimeGroups :=
  let t := String.mk (jsTrim raw.toList)
  match classifyAge raw with
  | some .seconds => { g with seconds := g.seconds ++ [t] }
  | some .lessThan30m => { g with lessThan30m := g.lessThan30m ++ [t] }
  | some .moreThan30m => { g with moreThan30m := g.moreThan30m ++ [t] }
  | some .lessThan2h => { g with lessThan2h := g.lessThan2h ++ [t] }
  | some .moreThan2h => { g with moreThan2h := g.moreThan2h ++ [t] }
  | some .days => { g with days := g.days ++ [t] }
  | some .weeks => { g with weeks := g.weeks ++ [t] }
  | none => g

/-- The full classification loop over the nested trade table's age texts
(App.tsx:1448-1483). -/
def buildTimeGroups (ages : List String) : TimeGroups :=
  ages.foldl classifyInto emptyTimeGroups

/-- `Math.max` over the six non-seconds bucket counts (App.tsx:1495-1502). -/
def highestOtherCount (g : TimeGroups) : Nat :=
  max g.lessThan30m.length
    (max g.moreThan30m.length
      (max g.lessThan2h.length
        (max g.moreThan2h.length
          (max g.days.length g.weeks.length))))

/-- The dominant-seconds signal (App.tsx:1504): the seconds bucket count
strictly exceeds every other single bucket count. -/
def dominantSeconds (ages : List String) : Bool :=
  let g := buildTimeGroups ages
  decide (highestOtherCount g < g.seconds.length)

/-- Number of age texts the branch chain puts into bucket `b`
(specification-side counting; relating it to `buildTimeGroups` is one of
the theorems below). -/
def bucketCount (b : Bucket) (ages : List String) : Nat :=
  ages.countP (fun t => classifyAge t == some b)

/-- The progressive scroll loop (App.tsx:1182-1217, exploratory twin at
576-611): while the target row is absent and fewer than `maxAttempts`
scroll advances have been issued, check the DOM (`present n` models
whether the target row is materialized after `n` scroll advances), and
on absence scroll once more. Returns whether the row was found together
with the number of scroll attempts issued; structural recursion on the
remaining attempt budget mirrors `scrollAttempts < maxScrollAttempts`. -/
def scrollLoopAux (present : Nat → Bool) : Nat → Nat → Bool × Nat
  | 0, attempts => (false, attempts)
  | remaining + 1, attempts =>
      if present attempts then (true, attempts)
      else scrollLoopAux present remaining (attempts + 1)

/-- The scroll loop started with `scrollAttempts = 0`. -/
def scrollLoop (present : Nat → Bool) (maxAttempts : Nat) : Bool × Nat :=
  scrollLoopAux present maxAttempts 0

/-- `maxScrollAttempts` of the main scraper (App.tsx:1185). -/
def mainMaxScrollAttempts : Nat := 5

/-- `maxScrollAttempts` of the exploratory scraper (App.tsx:579). -/
def exploratoryMaxScrollAttempts : Nat := 20

/-- The capture group of `/\$?\s*([\d.]+)/` on a profit-cell text
(App.tsx:1549): the first maximal run of digit-or-dot characters, or
`none` when the text has no such character and the regex does not match. -/
def firstDigitDotRun (cs : List Char) : Option (List Char) :=
  let isNumChar : Char → Bool := fun c => c.isDigit || c = '.'
  let rest := cs.dropWhile (fun c => !(isNumChar c))
  if rest.isEmpty then none else some (rest.takeWhile isNumChar)

/-- The profit-sample number extraction loop (App.tsx:1542-1557): for each
row of the most-profitable table read the second cell's text (`none`
models a per-row locator failure or null text, which the inner catch or
the failed match skips), match the number pattern and `parseFloat` the
captured group. -/
def profitNumbers (cells : List (Option String)) : List JSNum :=
  cells.filterMap (fun c =>
    c.bind (fun s => (firstDigitDotRun s.toList).map jsParseFloat))

/-- `numbers.filter((num) => num === 0).length` (App.tsx:1560). -/
def zeroCount (ns : List JSNum) : Nat :=
  (ns.filter (fun n => jsEqNum n (JSNum.fin (JQ.ofInt 0)))).length

/-- The run configuration (App.tsx:956-960); only the two thresholds are
consulted by the per-row pipeline. -/
structure Config where
  MIN_PNL : JQ
  MIN_ROI : JQ
  MAX_TOKENS_TO_PROCESS : Nat
  MAX_TRADERS_PER_TOKEN : Nat
  START_FROM_ROW : Nat
deriving Repr

/-- The documented default configuration (App.tsx:956-960). -/
def defaultConfig : Config :=
  { MIN_PNL := JQ.ofInt 25000
    MIN_ROI := JQ.ofInt 2000
    MAX_TOKENS_TO_PROCESS := 10
    MAX_TRADERS_PER_TOKEN := 20
    START_FROM_ROW := 3 }

/-- Everything the page offers one synthetic row position: what each
browser interaction of the row loop body would observe. -/
structure RowInput where
  present : Nat → Bool
  hasSolscanLink : Bool
  hasDivUnderLink : Bool
  extractionThrows : Bool
  revenueText : Option String
  pnlText : Option String
  spentText : Option String
  portfolioHref : Option String
  ageTexts : List String
  hasMostProfitableDiv : Bool
  profitCellTexts : List (Option String)

/-- How one iteration of the row loop (App.tsx:1173-1624) exits. -/
inductive RowOutcome where
  | rowNotFound
  | skipNoLink
  | skipNoDiv
  | errorCaught
  | rejectPnl
  | rejectRoi
  | rejectTiming
  | skipNoMPTab
  | rejectFewProfitRows
  | rejectTooManyZeros
  | accepted
deriving DecidableEq, Repr

/-- Observable result of one row-loop iteration: how it exited, how many
times `incrementPortfoliosChecked` ran, and whether the detail surface
(the ant-modal opened by clicking the div under the Solscan link) was
still open when control returned to the loop. -/
structure RowResult where
  outcome : RowOutcome
  increments : Nat
  surfaceOpenAtExit : Bool
deriving DecidableEq, Repr

/-- One iteration of the per-row try block of the main scraper
(App.tsx:1178-1623), path by path:
* the progressive scroll loop fails → `break` (row not found), no
  increment, no surface was opened;
* no Solscan link (1279) or no div under it (1287) → increment, skip;
* the div is clicked, opening the detail surface; a metric-extraction
  wait that times out throws, and the per-row catch (1620-1623) only
  logs and continues — it does not click the close button;
* PnL gate (1362), ROI gate (1406), timing gate (1504): on rejection
  increment, close, continue;
* missing MOST_PROFITABLE tab div (1514-1521): close, continue, with NO
  increment;
* fewer than 10 profit rows (1532) or more than 3 zero values (1561):
  close, increment, continue;
* acceptance (1572-1615): save, close, increment. -/
def evalRow (cfg : Config) (inp : RowInput) : RowResult :=
  if !(scrollLoop inp.present mainMaxScrollAttempts).1 then
    ⟨.rowNotFound, 0, false⟩
  else if !inp.hasSolscanLink then
    ⟨.skipNoLink, 1, false⟩
  else if !inp.hasDivUnderLink then
    ⟨.skipNoDiv, 1, false⟩
  else if inp.extractionThrows then
    ⟨.errorCaught, 0, true⟩
  else if jsLt (parseMetricText inp.pnlText) (JSNum.fin cfg.MIN_PNL) then
    ⟨.rejectPnl, 1, false⟩
  else if jsLt (roiOf (parseMetricText inp.revenueText) (parseMetricText inp.spentText))
               (JSNum.fin cfg.MIN_ROI) then
    ⟨.rejectRoi, 1, false⟩
  else if dominantSeconds inp.ageTexts then
    ⟨.rejectTiming, 1, false⟩
  else if !inp.hasMostProfitableDiv then
    ⟨.skipNoMPTab, 0, false⟩
  else if inp.profitCellTexts.length < 10 then
    ⟨.rejectFewProfitRows, 1, false⟩
  else if 3 < zeroCount (profitNumbers inp.profitCellTexts) then
    ⟨.rejectTooManyZeros, 1, false⟩
  else
    ⟨.accepted, 1, false⟩

/-- `loadStats` (App.tsx:1010-1023): the stats file models as `none` when
missing or unreadable, which loads as zero portfolios checked. -/
def loadStats (file : Option Nat) : Nat := file.getD 0

/-- `saveStats` (App.tsx:1026-1036): whole-document overwrite. -/
def saveStats (n : Nat) : Option Nat := some n

/-- `incrementPortfoliosChecked` (App.tsx:995-1007): load, increment,
save. -/
def incrementPortfoliosChecked (file : Option Nat) : Option Nat :=
  saveStats (loadStats file + 1)

/-- A JavaScript `Set` of strings, modelled as its elements in insertion
order; every set the program builds is duplicate-free. -/
def SetAdd (s : List String) (name : String) : List String :=
  if name ∈ s then s else s ++ [name]

/-- `loadProcessedTokens` (App.tsx:973-983): read the JSON array and build
a `Set` (which deduplicates); a missing or unreadable file (`none`) loads
as the empty set. -/
def loadProcessedTokens (file : Option (List String)) : List String :=
  (file.getD []).dedup

/-- `saveProcessedTokens` (App.tsx:986-992): write `Array.from(set)` as
the whole document. -/
def saveProcessedTokens (tokens : List String) : List String :=
  tokens

/-- The token-selection scan (App.tsx:1121-1140): walk the visible rows,
skip rows without a name span (`none`) and rows whose name is empty
(falsy) or already processed, and return the first fresh name. -/
def selectNewToken (processed : List String) : List (Option String) → Option String
  | [] => none
  | none :: rest => selectNewToken processed rest
  | some name :: rest =>
      if name ≠ "" ∧ name ∉ processed then some name
      else selectNewToken processed rest

/-- The outer token loop of the main scraper (App.tsx:1107-1625) as it
acts on the processed-token set: each iteration selects the first fresh
token among that iteration's visible rows, adds it to the set and saves
the set immediately (1129-1131); when no fresh token is found the loop
breaks. Returns the final set together with every file content written
by `saveProcessedTokens` during the loop, in order. -/
def runTokens : List (List (Option String)) → List String → List String × List (List String)
  | [], s => (s, [])
  | rows :: rest, s =>
      match selectNewToken s rows with
      | none => (s, [])
      | some name =>
          let s2 := SetAdd s name
          let r := runTokens rest s2
          (r.1, saveProcessedTokens s2 :: r.2)

/-- One whole run of `main` as it acts on the processed-token store
(App.tsx:1103, 1107-1625, 1628): load the set, run the token loop, save
once more at the end. -/
def mainRun (file : Option (List String)) (rowsPerIter : List (List (Option String))) :
    List String × List (List String) :=
  let s0 := loadProcessedTokens file
  let r := runTokens rowsPerIter s0
  (r.1, r.2 ++ [saveProcessedTokens r.1])

/-- Rational denotation of a JavaScript number: `some` for finite values,
`none` for NaN and the infinities (specification only). -/
def jsToRat : JSNum → Option Rat
  | .fin q => some q.toRat
  | _ => none

/-- How many `incrementPortfoliosChecked` calls each exit path of the row
loop performs (specification-side; the theorem below proves `evalRow`
realizes it). -/
def incrOfOutcome : RowOutcome → Nat
  | .rowNotFound => 0
  | .skipNoMPTab => 0
  | .errorCaught => 0
  | _ => 1

/-- A concrete row whose metrics pass every gate with the default
thresholds except that its spend parses to exactly 0. -/
def zeroSpendRow : RowInput :=
  { present := fun _ => true
    hasSolscanLink := true
    hasDivUnderLink := true
    extractionThrows := false
    revenueText := some "$150"
    pnlText := some "$50K"
    spentText := some "$0"
    portfolioHref := some "/portfolio/abc"
    ageTexts := ["3d", "2w", "5d"]
    hasMostProfitableDiv := true
    profitCellTexts :=
      [some "$5", some "$5", some "$5", some "$5", some "$5",
       some "$5", some "$5", some "$5", some "$5", some "$5"] }

/-- A concrete row that the scraper fully accepts with the default
thresholds. -/
def acceptingRow : RowInput :=
  { present := fun _ => true
    hasSolscanLink := true
    hasDivUnderLink := true
    extractionThrows := false
    revenueText := some "$2M"
    pnlText := some "$1.6M"
    spentText := some "$1"
    portfolioHref := some "/portfolio/abc"
    ageTexts := ["3d", "2w", "5d"]
    hasMostProfitableDiv := true
    profitCellTexts :=
      [some "$5", some "$5", some "$5", some "$0", some "$5",
       some "$5", some "$5", some "$5", some "$5", some "$5"] }

/-- A concrete row lacking the Solscan outbound link. -/
def noLinkRow : RowInput :=
  { acceptingRow with hasSolscanLink := false }

/-- A concrete row lacking the MOST_PROFITABLE tab div. -/
def noMPTabRow : RowInput :=
  { acceptingRow with hasMostProfitableDiv := false }

/-- A concrete row whose metric extraction throws after the detail
surface opened. -/
def throwingRow : RowInput :=
  { acceptingRow with extractionThrows := true }

/-- A concrete row whose trade ages are the spec's timing example. -/
def secondsHeavyRow : RowInput :=
  { acceptingRow with ageTexts := ["5s", "5s", "5s", "1m", "2h"] }

/-- A concrete row whose trade-age texts match no classification branch. -/
def unclassifiableRow : RowInput :=
  { acceptingRow with ageTexts := ["???"] }


/-! ## Helper lemmas -/

/-- Cross-multiplication `<` agrees with the rational denotation when both
denominators are positive. -/
theorem qLt_iff_toRat (a b : JQ) (ha : 0 < a.den) (hb : 0 < b.den) :
    qLt a b = true ↔ a.toRat < b.toRat := by
  have ha' : (0 : Rat) < (a.den : Rat) := by exact_mod_cast ha
  have hb' : (0 : Rat) < (b.den : Rat) := by exact_mod_cast hb
  unfold qLt JQ.toRat
  rw [decide_eq_true_iff, div_lt_div_iff₀ ha' hb']
  constructor
  · intro h
    have h2 : ((a.num * b.den : Int) : Rat) < ((b.num * a.den : Int) : Rat) := by exact_mod_cast h
    push_cast at h2
    linarith
  · intro h
    have h2 : ((a.num * b.den : Int) : Rat) < ((b.num * a.den : Int) : Rat) := by push_cast; linarith
    exact_mod_cast h2

/-- `jsLt` against a larger finite threshold stays false when it is false
against a smaller one. -/
theorem jsLt_false_mono (p : JSNum) (hw : p.wf) (t t' : JQ)
    (ht : 0 < t.den) (ht' : 0 < t'.den) (hle : t.toRat ≤ t'.toRat)
    (h : jsLt p (JSNum.fin t') = false) : jsLt p (JSNum.fin t) = false := by
  cases p with
  | nan => rfl
  | pinf => rfl
  | ninf => simp [jsLt] at h
  | fin q =>
      simp only [jsLt] at h ⊢
      have hq : 0 < q.den := hw
      rw [Bool.eq_false_iff] at h ⊢
      intro hc
      exact h (((qLt_iff_toRat q t' hq ht').mpr (lt_of_lt_of_le ((qLt_iff_toRat q t hq ht).mp hc) hle)))

/-- The row loop accepts exactly when every guard of the gate chain is
cleared. -/
theorem evalRow_accepted_iff (cfg : Config) (inp : RowInput) :
    (evalRow cfg inp).outcome = .accepted ↔
      ((scrollLoop inp.present mainMaxScrollAttempts).1 = true ∧
       inp.hasSolscanLink = true ∧
       inp.hasDivUnderLink = true ∧
       inp.extractionThrows = false ∧
       jsLt (parseMetricText inp.pnlText) (JSNum.fin cfg.MIN_PNL) = false ∧
       jsLt (roiOf (parseMetricText inp.revenueText) (parseMetricText inp.spentText))
            (JSNum.fin cfg.MIN_ROI) = false ∧
       dominantSeconds inp.ageTexts = false ∧
       inp.hasMostProfitableDiv = true ∧
       ¬ inp.profitCellTexts.length < 10 ∧
       ¬ 3 < zeroCount (profitNumbers inp.profitCellTexts)) := by
  unfold evalRow
  repeat' split
  all_goals simp_all

/-- The row loop exits through the PnL rejection exactly when the guards
before the PnL gate are cleared and the PnL comparison fires. -/
theorem evalRow_rejectPnl_iff (cfg : Config) (inp : RowInput) :
    (evalRow cfg inp).outcome = .rejectPnl ↔
      ((scrollLoop inp.present mainMaxScrollAttempts).1 = true ∧
       inp.hasSolscanLink = true ∧
       inp.hasDivUnderLink = true ∧
       inp.extractionThrows = false ∧
       jsLt (parseMetricText inp.pnlText) (JSNum.fin cfg.MIN_PNL) = true) := by
  unfold evalRow
  repeat' split
  all_goals simp_all

/-- A timing-gate rejection can only happen with the dominant-seconds
signal raised. -/
theorem evalRow_rejectTiming_dominant (cfg : Config) (inp : RowInput)
    (h : (evalRow cfg inp).outcome = .rejectTiming) :
    dominantSeconds inp.ageTexts = true := by
  unfold evalRow at h
  repeat' split at h
  all_goals simp_all

/-- The increment count of every exit path, as a function of the path. -/
theorem evalRow_increments (cfg : Config) (inp : RowInput) :
    (evalRow cfg inp).increments = incrOfOutcome (evalRow cfg inp).outcome := by
  unfold evalRow
  repeat' split
  all_goals rfl

/-- The detail surface is left open exactly on the caught-exception path. -/
theorem evalRow_surface (cfg : Config) (inp : RowInput) :
    (evalRow cfg inp).surfaceOpenAtExit = decide ((evalRow cfg inp).outcome = .errorCaught) := by
  unfold evalRow
  repeat' split
  all_goals rfl

/-- When the target row never materializes, the scroll loop runs out of
its exact attempt budget and reports the row absent. -/
theorem scrollLoopAux_never (present : Nat → Bool) (h : ∀ n, present n = false) :
    ∀ r a, scrollLoopAux present r a = (false, a + r) := by
  intro r
  induction r with
  | zero => intro a; simp [scrollLoopAux]
  | succ k ih =>
      intro a
      simp only [scrollLoopAux, h a, Bool.false_eq_true, if_false]
      rw [ih (a + 1)]
      have : a + 1 + k = a + (k + 1) := by omega
      rw [this]

/-- The scroll loop never issues more scroll attempts than its budget. -/
theorem scrollLoopAux_le (present : Nat → Bool) :
    ∀ r a, (scrollLoopAux present r a).2 ≤ a + r := by
  intro r
  induction r with
  | zero => intro a; simp [scrollLoopAux]
  | succ k ih =>
      intro a
      simp only [scrollLoopAux]
      split
      · simp
      · have := ih (a + 1)
        omega

/-- `Set.add` semantics: the set grows by at most the added element. -/
theorem SetAdd_subset (s : List String) (name : String) : s ⊆ SetAdd s name := by
  unfold SetAdd
  split
  · exact fun a ha => ha
  · exact fun a ha => List.mem_append_left _ ha

/-- `Set.add` keeps the element list duplicate-free. -/
theorem SetAdd_nodup (s : List String) (name : String) (h : s.Nodup) :
    (SetAdd s name).Nodup := by
  unfold SetAdd
  split
  · exact h
  · rename_i hmem
    simp only [List.nodup_append, List.nodup_cons, List.nodup_nil, and_true, true_and]
    exact ⟨h, by simpa using fun hx => hmem hx⟩

/-- Membership in `Set.add`. -/
theorem SetAdd_mem (s : List String) (name : String) : name ∈ SetAdd s name := by
  unfold SetAdd
  split
  · assumption
  · exact List.mem_append_right _ (List.mem_singleton.mpr rfl)

/-- The token loop only ever extends the processed set. -/
theorem runTokens_subset (its : List (List (Option String))) :
    ∀ s, s ⊆ (runTokens its s).1 := by
  induction its with
  | nil => intro s; exact fun a ha => ha
  | cons rows rest ih =>
      intro s
      unfold runTokens
      cases h : selectNewToken s rows with
      | none => exact fun a ha => ha
      | some name =>
          simp only
          exact fun a ha => ih (SetAdd s name) (SetAdd_subset s name ha)

/-- The token loop keeps the processed set duplicate-free. -/
theorem runTokens_nodup (its : List (List (Option String))) :
    ∀ s, s.Nodup → (runTokens its s).1.Nodup := by
  induction its with
  | nil => intro s hs; exact hs
  | cons rows rest ih =>
      intro s hs
      unfold runTokens
      cases h : selectNewToken s rows with
      | none => exact hs
      | some name => exact ih (SetAdd s name) (SetAdd_nodup s name hs)

/-- Every file content the token loop saves extends the set it started
from, and is duplicate-free when that set is. -/
theorem runTokens_saves (its : List (List (Option String))) :
    ∀ s f, f ∈ (runTokens its s).2 → (s ⊆ f ∧ (s.Nodup → f.Nodup)) := by
  induction its with
  | nil => intro s f hf; simp [runTokens] at hf
  | cons rows rest ih =>
      intro s f hf
      unfold runTokens at hf
      cases h : selectNewToken s rows with
      | none => simp [h] at hf
      | some name =>
          simp only [h, List.mem_cons] at hf
          cases hf with
          | inl hf =>
              subst hf
              exact ⟨SetAdd_subset s name, SetAdd_nodup s name⟩
          | inr hf =>
              have := ih (SetAdd s name) f hf
              exact ⟨fun a ha => this.1 (SetAdd_subset s name ha),
                     fun hs => this.2 (SetAdd_nodup s name hs)⟩

/-- A selected token is fresh: nonempty and not yet processed. -/
theorem selectNewToken_fresh (s : List String) :
    ∀ rows name, selectNewToken s rows = some name → name ≠ "" ∧ name ∉ s := by
  intro rows
  induction rows with
  | nil => intro name h; simp [selectNewToken] at h
  | cons r rest ih =>
      intro name h
      cases r with
      | none => exact ih name h
      | some n =>
          unfold selectNewToken at h
          split at h
          · rename_i hc
            cases h
            exact hc
          · exact ih name h

/-- The bucket-list lengths produced by the classification fold are the
branch-wise counts of the age texts. -/
theorem buildGroups_counts (ages : List String) : ∀ g : TimeGroups,
    ((ages.foldl classifyInto g).seconds.length = g.seconds.length + bucketCount .seconds ages) ∧
    ((ages.foldl classifyInto g).lessThan30m.length = g.lessThan30m.length + bucketCount .lessThan30m ages) ∧
    ((ages.foldl classifyInto g).moreThan30m.length = g.moreThan30m.length + bucketCount .moreThan30m ages) ∧
    ((ages.foldl classifyInto g).lessThan2h.length = g.lessThan2h.length + bucketCount .lessThan2h ages) ∧
    ((ages.foldl classifyInto g).moreThan2h.length = g.moreThan2h.length + bucketCount .moreThan2h ages) ∧
    ((ages.foldl classifyInto g).days.length = g.days.length + bucketCount .days ages) ∧
    ((ages.foldl classifyInto g).weeks.length = g.weeks.length + bucketCount .weeks ages) := by
  induction ages with
  | nil => intro g; simp [bucketCount]
  | cons a rest ih =>
      intro g
      have h7 := ih (classifyInto g a)
      have hl :
          ((classifyInto g a).seconds.length =
            g.seconds.length + (if classifyAge a == some .seconds then 1 else 0)) ∧
          ((classifyInto g a).lessThan30m.length =
            g.lessThan30m.length + (if classifyAge a == some .lessThan30m then 1 else 0)) ∧
          ((classifyInto g a).moreThan30m.length =
            g.moreThan30m.length + (if classifyAge a == some .moreThan30m then 1 else 0)) ∧
          ((classifyInto g a).lessThan2h.length =
            g.lessThan2h.length + (if classifyAge a == some .lessThan2h then 1 else 0)) ∧
          ((classifyInto g a).moreThan2h.length =
            g.moreThan2h.length + (if classifyAge a == some .moreThan2h then 1 else 0)) ∧
          ((classifyInto g a).days.length =
            g.days.length + (if classifyAge a == some .days then 1 else 0)) ∧
          ((classifyInto g a).weeks.length =
            g.weeks.length + (if classifyAge a == some .weeks then 1 else 0)) := by
        rcases hc : classifyAge a with _ | b
        · simp [classifyInto, hc]
        · cases b <;> simp [classifyInto, hc]
      obtain ⟨l1, l2, l3, l4, l5, l6, l7⟩ := hl
      obtain ⟨p1, p2, p3, p4, p5, p6, p7⟩ := h7
      simp only [List.foldl_cons, bucketCount, List.countP_cons] at p1 p2 p3 p4 p5 p6 p7 ⊢
      refine ⟨?_, ?_, ?_, ?_, ?_, ?_, ?_⟩
      · rw [p1, l1]; omega
      · rw [p2, l2]; omega
      · rw [p3, l3]; omega
      · rw [p4, l4]; omega
      · rw [p5, l5]; omega
      · rw [p6, l6]; omega
      · rw [p7, l7]; omega

/-- The dominant-seconds signal in terms of branch-wise counts. -/
theorem dominantSeconds_iff (ages : List String) :
    dominantSeconds ages = true ↔
      max (bucketCount .lessThan30m ages)
        (max (bucketCount .moreThan30m ages)
          (max (bucketCount .lessThan2h ages)
            (max (bucketCount .moreThan2h ages)
              (max (bucketCount .days ages) (bucketCount .weeks ages))))) <
        bucketCount .seconds ages := by
  obtain ⟨p1, p2, p3, p4, p5, p6, p7⟩ := buildGroups_counts ages emptyTimeGroups
  simp only [emptyTimeGroups, List.length_nil, Nat.zero_add] at p1 p2 p3 p4 p5 p6 p7
  simp only [dominantSeconds, highestOtherCount, buildTimeGroups, emptyTimeGroups]
  rw [decide_eq_true_iff]
  rw [p1, p2, p3, p4, p5, p6, p7]

/-- The denominator of a fraction quotient. -/
theorem qDiv_den (a b : JQ) : (qDiv a b).den = a.den * b.num.natAbs := by
  unfold qDiv; split <;> rfl

/-- `jsParseFloat` always yields NaN or a finite value with positive
denominator. -/
theorem jsParseFloat_wf (cs : List Char) : (jsParseFloat cs).wf := by
  simp only [jsParseFloat]
  split
  · trivial
  · simp only [JSNum.wf]
    split <;>
      (simp only [JQ.posDen, qNegate, qAdd, qDiv_den, JQ.ofInt]
       simp only [Nat.one_mul, Int.natAbs_pos]
       try positivity)

/-- `jsMul` preserves well-formedness. -/
theorem jsMul_wf (a b : JSNum) (ha : a.wf) (hb : b.wf) : (jsMul a b).wf := by
  cases a <;> cases b <;> simp only [jsMul] <;>
    first
    | trivial
    | ((repeat' split) <;> trivial)
    | exact Nat.mul_pos ha hb

/-- `parseSuffixed` always yields NaN or a finite value with positive
denominator. -/
theorem parseSuffixed_wf (raw : String) : (parseSuffixed raw).wf := by
  simp only [parseSuffixed]
  have hm : (JSNum.fin (JQ.ofInt 1000000)).wf := by
    simp [JSNum.wf, JQ.posDen, JQ.ofInt]
  have hk : (JSNum.fin (JQ.ofInt 1000)).wf := by
    simp [JSNum.wf, JQ.posDen, JQ.ofInt]
  split
  · exact jsMul_wf _ _ (jsParseFloat_wf _) hm
  · split
    · exact jsMul_wf _ _ (jsParseFloat_wf _) hk
    · exact jsParseFloat_wf _

/-- `parseMetricText` always yields NaN or a finite value with positive
denominator. -/
theorem parseMetricText_wf (text : Option String) : (parseMetricText text).wf := by
  unfold parseMetricText
  exact parseSuffixed_wf _

/-! ## Claims -/

/-- C1 counterexample: the Numeric Parser does not map every digit-free
input to 0 — `parse("garbage")` is NaN, not 0 — and the magnitude letter
`m` is not handled case-insensitively: lowercase `m` is stripped by the
cleaning class `[^0-9MKk.]`, so `parse("$1.2m")` is 1.2, not 1,200,000. -/
theorem c1_numeric_parse_counterexample :
    parseMetricText (some "garbage") = JSNum.nan ∧
    jsEqNum (parseMetricText (some "garbage")) (JSNum.fin (JQ.ofInt 0)) = false ∧
    jsEqNum (parseMetricText (some "$1.2m")) (JSNum.fin (JQ.ofInt 1200000)) = false ∧
    jsEqNum (parseMetricText (some "$1.2m")) (JSNum.fin ⟨12, 10⟩) = true := by
  decide

/-- C1 (amended): the Numeric Parser strips every character that is not a
digit, a dot, or one of the letters `M`, `K`, `k` (so lowercase `m` is
stripped rather than kept); a trailing `K` multiplies by 1,000
case-insensitively and a trailing `M` (necessarily uppercase, since
lowercase `m` never survives cleaning) multiplies by 1,000,000; it is
pure and total, a null or empty reading falls back to `'0'` and parses
to 0, and a non-empty input with no digits yields NaN rather than 0; in
particular parse("$1.2M") = 1,200,000 and parse("430K") = parse("430k")
= 430,000. -/
theorem c1_numeric_parse :
    jsEqNum (parseMetricText (some "$1.2M")) (JSNum.fin (JQ.ofInt 1200000)) = true ∧
    jsEqNum (parseMetricText (some "430K")) (JSNum.fin (JQ.ofInt 430000)) = true ∧
    jsEqNum (parseMetricText (some "430k")) (JSNum.fin (JQ.ofInt 430000)) = true ∧
    jsEqNum (parseMetricText (some "")) (JSNum.fin (JQ.ofInt 0)) = true ∧
    jsEqNum (parseMetricText none) (JSNum.fin (JQ.ofInt 0)) = true ∧
    parseMetricText (some "garbage") = JSNum.nan ∧
    (∀ raw c, c ∈ cleanNumeric raw →
      (c.isDigit || c = '.' || c = 'M' || c = 'K' || c = 'k') = true) ∧
    (∀ raw, 'm' ∉ cleanNumeric raw) := by
  refine ⟨by decide, by decide, by decide, by decide, by decide, by decide, ?_, ?_⟩
  · intro raw c h
    have h2 : c ∈ List.filter (fun c => c.isDigit || c = '.' || c = 'M' || c = 'K' || c = 'k') raw := by
      simpa [cleanNumeric] using h
    exact (List.mem_filter.mp h2).2
  · intro raw h
    have h2 : 'm' ∈ List.filter (fun c => c.isDigit || c = '.' || c = 'M' || c = 'K' || c = 'k') raw := by
      simp only [cleanNumeric] at h
      exact h
    have h3 := (List.mem_filter.mp h2).2
    simp at h3

/-- C1 witness: the kept-character property applied at the digit `1`
surviving the cleaning of `$1.2M`. -/
theorem c1_numeric_parse_witness :
    ('1'.isDigit || '1' = '.' || '1' = 'M' || '1' = 'K' || '1' = 'k') = true :=
  c1_numeric_parse.2.2.2.2.2.2.1 "$1.2M".toList '1' (by decide)

/-- C3 counterexample: a row lacking its Solscan outbound link — whose
evaluation aborts before metric extraction begins — does increment the
evaluation counter (App.tsx:1279-1283), and a row rejected because the
MOST_PROFITABLE tab div is missing does not (App.tsx:1514-1521),
contradicting both halves of the claim's increment rule. -/
theorem c3_counter_counterexample :
    (evalRow defaultConfig noLinkRow).outcome = .skipNoLink ∧
    (evalRow defaultConfig noLinkRow).increments = 1 ∧
    (evalRow defaultConfig noMPTabRow).outcome = .skipNoMPTab ∧
    (evalRow defaultConfig noMPTabRow).increments = 0 := by
  decide

/-- C3 (amended): the evaluation counter is incremented exactly once on
the no-link and no-div skip paths (which abort before extraction), on
each of the PnL / ROI / timing / few-profit-rows / too-many-zeros
rejections and on acceptance; it is not incremented when the row is
never found, when the MOST_PROFITABLE tab div is missing, or when a
per-row exception is caught; and every increment is persisted to the
stats store (`incrementPortfoliosChecked` saves what it loads plus one). -/
theorem c3_counter (cfg : Config) (inp : RowInput) :
    (evalRow cfg inp).increments = incrOfOutcome (evalRow cfg inp).outcome ∧
    incrOfOutcome .skipNoLink = 1 ∧
    incrOfOutcome .skipNoDiv = 1 ∧
    incrOfOutcome .rowNotFound = 0 ∧
    incrOfOutcome .skipNoMPTab = 0 ∧
    incrOfOutcome .errorCaught = 0 ∧
    incrOfOutcome .accepted = 1 ∧
    (∀ f, loadStats (incrementPortfoliosChecked f) = loadStats f + 1) := by
  refine ⟨?_, rfl, rfl, rfl, rfl, rfl, rfl, fun f => rfl⟩
  unfold evalRow
  repeat' split
  all_goals rfl

/-- C4 counterexample: a row whose metric extraction throws after the
detail surface opened exits through the per-row catch handler
(App.tsx:1620-1623), which only logs and continues — the detail surface
is still open when control returns to the loop. -/
theorem c4_close_counterexample :
    (evalRow defaultConfig throwingRow).outcome = .errorCaught ∧
    (evalRow defaultConfig throwingRow).surfaceOpenAtExit = true := by
  decide

/-- C4 (amended): every gate exit — passing or rejecting, including both
pre-extraction skips and the missing-tab skip — closes the detail
surface before control returns to the loop; the single exception is the
per-row catch handler, which leaves the surface open, so the claimed
invariant fails exactly on the caught-exception path. -/
theorem c4_close (cfg : Config) (inp : RowInput) :
    (evalRow cfg inp).surfaceOpenAtExit =
      decide ((evalRow cfg inp).outcome = .errorCaught) := by
  unfold evalRow
  repeat' split
  all_goals rfl

/-- C2 counterexample: the ROI gate has no non-positive-spend check; for
spend 0 the IEEE division yields +Infinity, which is not below any
finite minimum ROI, so the zero-spend row passes the gate (and here is
fully accepted) instead of being rejected as the claim states. -/
theorem c2_roi_gate_counterexample :
    roiOf (JSNum.fin (JQ.ofInt 150)) (JSNum.fin (JQ.ofInt 0)) = JSNum.pinf ∧
    jsLt (roiOf (JSNum.fin (JQ.ofInt 150)) (JSNum.fin (JQ.ofInt 0)))
         (JSNum.fin defaultConfig.MIN_ROI) = false ∧
    jsEqNum (parseMetricText zeroSpendRow.spentText) (JSNum.fin (JQ.ofInt 0)) = true ∧
    (evalRow defaultConfig zeroSpendRow).outcome = .accepted := by
  decide

/-- C2 (amended): the ROI gate computes ROI = (revenue − spend) / spend ×
100 and rejects exactly when that value is below the configured minimum
ROI under IEEE comparison; zero spend never crashes, but it is not
rejected either: with non-negative revenue the division yields +Infinity
(revenue positive) or NaN (revenue zero), neither of which is below the
minimum, so the zero-spend row passes the gate; for nonzero finite spend
the computed value is exactly (revenue − spend) / spend × 100. -/
theorem c2_roi_gate (rev minRoi : JQ) (hden : 0 < rev.den) (hnum : 0 ≤ rev.num) :
    jsLt (roiOf (JSNum.fin rev) (JSNum.fin (JQ.ofInt 0))) (JSNum.fin minRoi) = false ∧
    (0 < rev.num → roiOf (JSNum.fin rev) (JSNum.fin (JQ.ofInt 0)) = JSNum.pinf) ∧
    (rev.num = 0 → roiOf (JSNum.fin rev) (JSNum.fin (JQ.ofInt 0)) = JSNum.nan) ∧
    (∀ sp : JQ, 0 < sp.den → sp.num ≠ 0 →
      jsToRat (roiOf (JSNum.fin rev) (JSNum.fin sp)) =
        some ((rev.toRat - sp.toRat) / sp.toRat * 100)) := by
  have hpos : 0 < rev.num → roiOf (JSNum.fin rev) (JSNum.fin (JQ.ofInt 0)) = JSNum.pinf := by
    intro hp
    simp [roiOf, jsSub, jsDiv, jsMul, qSub, qIsZero, qIsPos, qIsNeg, JQ.ofInt, hp,
          Int.not_lt.mpr (le_of_lt hp)]
  have hzero : rev.num = 0 → roiOf (JSNum.fin rev) (JSNum.fin (JQ.ofInt 0)) = JSNum.nan := by
    intro hz
    simp [roiOf, jsSub, jsDiv, jsMul, qSub, qIsZero, qIsPos, qIsNeg, JQ.ofInt, hz]
  refine ⟨?_, hpos, hzero, ?_⟩
  · rcases hnum.lt_or_eq with hp | hz
    · rw [hpos hp]; rfl
    · rw [hzero hz.symm]; rfl
  · intro sp hspden hspnum
    have hrd : ((rev.den : Rat)) ≠ 0 := by positivity
    have hsd : ((sp.den : Rat)) ≠ 0 := by positivity
    have hsn : ((sp.num : Rat)) ≠ 0 := Int.cast_ne_zero.mpr hspnum
    have hstep : roiOf (JSNum.fin rev) (JSNum.fin sp) =
        JSNum.fin (qMul (qDiv (qSub rev sp) sp) (JQ.ofInt 100)) := by
      simp [roiOf, jsSub, jsDiv, jsMul, qIsZero, hspnum]
    rw [hstep]
    rcases le_or_lt 0 sp.num with hsp | hsp
    · have habs : ((sp.num.natAbs : Rat)) = ((sp.num : Rat)) := by
        rw [Int.cast_natAbs, Int.cast_abs]
        exact abs_of_nonneg (by exact_mod_cast hsp)
      simp only [jsToRat, qMul, qDiv, qSub, JQ.ofInt, JQ.toRat, if_pos hsp, Option.some.injEq]
      push_cast
      rw [habs]
      field_simp
      left
      ring
    · have habs : ((sp.num.natAbs : Rat)) = -((sp.num : Rat)) := by
        rw [Int.cast_natAbs, Int.cast_abs]
        exact abs_of_neg (by exact_mod_cast hsp)
      simp only [jsToRat, qMul, qDiv, qSub, JQ.ofInt, JQ.toRat, if_neg (Int.not_le.mpr hsp),
                 Option.some.injEq]
      push_cast
      rw [habs]
      field_simp
      left
      ring

/-- C2 witness: the amended zero-spend behaviour evaluated at
revenue 150, spend 0, minimum ROI 2000. -/
theorem c2_roi_gate_witness :
    jsLt (roiOf (JSNum.fin (JQ.ofInt 150)) (JSNum.fin (JQ.ofInt 0)))
         (JSNum.fin (JQ.ofInt 2000)) = false :=
  (c2_roi_gate (JQ.ofInt 150) (JQ.ofInt 2000) (by decide) (by decide)).1

/-- C5: the processed-identifier store has set semantics and is
monotonically non-decreasing: a load is always duplicate-free, every
file content saved during a run extends the duplicate-free set the run
loaded, the run's final set extends the loaded one, saving then loading
is the identity on duplicate-free sets, and the set a second run reaches
extends everything the first run processed. -/
theorem c5_processed_set :
    (∀ file, (loadProcessedTokens file).Nodup) ∧
    (∀ file its f, f ∈ (mainRun file its).2 →
       loadProcessedTokens file ⊆ f ∧ f.Nodup) ∧
    (∀ file its, loadProcessedTokens file ⊆ (mainRun file its).1 ∧ (mainRun file its).1.Nodup) ∧
    (∀ s : List String, s.Nodup → loadProcessedTokens (some (saveProcessedTokens s)) = s) ∧
    (∀ file its1 its2,
       (mainRun file its1).1 ⊆
         (mainRun (some (saveProcessedTokens (mainRun file its1).1)) its2).1) := by
  have hload : ∀ file, (loadProcessedTokens file).Nodup := fun file => List.nodup_dedup _
  have hmain : ∀ file its,
      loadProcessedTokens file ⊆ (mainRun file its).1 ∧ (mainRun file its).1.Nodup := by
    intro file its
    exact ⟨runTokens_subset its _, runTokens_nodup its _ (hload file)⟩
  have hsave : ∀ s : List String, s.Nodup →
      loadProcessedTokens (some (saveProcessedTokens s)) = s := by
    intro s hs
    simp only [loadProcessedTokens, saveProcessedTokens, Option.getD_some]
    exact List.dedup_eq_self.mpr hs
  refine ⟨hload, ?_, hmain, hsave, ?_⟩
  · intro file its f hf
    simp only [mainRun, List.mem_append, List.mem_singleton] at hf
    rcases hf with hf | hf
    · have h2 := runTokens_saves its (loadProcessedTokens file) f hf
      exact ⟨h2.1, h2.2 (hload file)⟩
    · subst hf
      simp only [saveProcessedTokens]
      exact ⟨runTokens_subset its _, runTokens_nodup its _ (hload file)⟩
  · intro file its1 its2
    have h1 := (hmain file its1).2
    have h2 : loadProcessedTokens (some (saveProcessedTokens (mainRun file its1).1)) =
        (mainRun file its1).1 := hsave _ h1
    have h3 := (hmain (some (saveProcessedTokens (mainRun file its1).1)) its2).1
    rw [h2] at h3
    exact h3

/-- C5 witness: a run starting from the stored set `[A]` that sees a row
named `B` saves `[A, B]`, a duplicate-free superset of what it loaded. -/
theorem c5_processed_set_witness :
    loadProcessedTokens (some ["A"]) ⊆ ["A", "B"] ∧ (["A", "B"] : List String).Nodup :=
  c5_processed_set.2.1 (some ["A"]) [[some "B"]] ["A", "B"] (by decide)

/-- C6: the Trade-Timing Classifier buckets age texts by the s/m/h/d/w
branch chain with minutes split at 30 and hours at 2, and the
dominant-seconds signal is true exactly when the seconds bucket count
strictly exceeds the largest of the other six bucket counts; on the
spec's example ages the seconds count is 3, the largest other count is
1, the signal is true, and no row with those ages is ever accepted. -/
theorem c6_timing_gate :
    (∀ ages : List String, dominantSeconds ages = true ↔
       max (bucketCount .lessThan30m ages)
         (max (bucketCount .moreThan30m ages)
           (max (bucketCount .lessThan2h ages)
             (max (bucketCount .moreThan2h ages)
               (max (bucketCount .days ages) (bucketCount .weeks ages))))) <
         bucketCount .seconds ages) ∧
    bucketCount .seconds ["5s", "5s", "5s", "1m", "2h"] = 3 ∧
    classifyAge "1m" = some .lessThan30m ∧
    classifyAge "2h" = some .moreThan2h ∧
    highestOtherCount (buildTimeGroups ["5s", "5s", "5s", "1m", "2h"]) = 1 ∧
    dominantSeconds ["5s", "5s", "5s", "1m", "2h"] = true ∧
    (∀ (cfg : Config) (inp : RowInput),
       inp.ageTexts = ["5s", "5s", "5s", "1m", "2h"] →
       (evalRow cfg inp).outcome ≠ .accepted) := by
  refine ⟨dominantSeconds_iff, by decide, by decide, by decide, by decide, by decide, ?_⟩
  intro cfg inp hages hacc
  rw [evalRow_accepted_iff] at hacc
  obtain ⟨_, _, _, _, _, _, h7, _, _, _⟩ := hacc
  rw [hages] at h7
  have hd : dominantSeconds ["5s", "5s", "5s", "1m", "2h"] = true := by decide
  rw [hd] at h7
  simp at h7

/-- C6 witness: the gate-chain consequence applied to a concrete row
carrying the example ages: it is not accepted. -/
theorem c6_timing_gate_witness :
    (evalRow defaultConfig secondsHeavyRow).outcome ≠ .accepted :=
  c6_timing_gate.2.2.2.2.2.2 defaultConfig secondsHeavyRow rfl

/-- C7: for a fixed row input, the accept decision is antitone in the
MIN_PNL threshold: lowering the threshold preserves acceptance (so
raising it never turns a rejected row into an accepted one), and
raising it to any value strictly above the computed PnL turns an
accepted row into a PnL-gate rejection. -/
theorem c7_pnl_monotone (cfg : Config) (inp : RowInput) (t t2 : JQ)
    (ht : 0 < t.den) (ht2 : 0 < t2.den) :
    (t.toRat ≤ t2.toRat →
      (evalRow { cfg with MIN_PNL := t2 } inp).outcome = .accepted →
      (evalRow { cfg with MIN_PNL := t } inp).outcome = .accepted) ∧
    ((evalRow { cfg with MIN_PNL := t } inp).outcome = .accepted →
      jsLt (parseMetricText inp.pnlText) (JSNum.fin t2) = true →
      (evalRow { cfg with MIN_PNL := t2 } inp).outcome = .rejectPnl) := by
  constructor
  · intro hle hacc
    rw [evalRow_accepted_iff] at hacc ⊢
    obtain ⟨h1, h2, h3, h4, h5, h6, h7, h8, h9, h10⟩ := hacc
    exact ⟨h1, h2, h3, h4,
           jsLt_false_mono _ (parseMetricText_wf _) t t2 ht ht2 hle h5,
           h6, h7, h8, h9, h10⟩
  · intro hacc hlt
    rw [evalRow_accepted_iff] at hacc
    obtain ⟨h1, h2, h3, h4, _, _, _, _, _, _⟩ := hacc
    rw [evalRow_rejectPnl_iff]
    exact ⟨h1, h2, h3, h4, hlt⟩

/-- C7 witness: the accepting example row (computed PnL 1,600,000) is
accepted at the default threshold 25,000 and flips to a PnL rejection
at threshold 2,000,000. -/
theorem c7_pnl_monotone_witness :
    (evalRow { defaultConfig with MIN_PNL := JQ.ofInt 2000000 } acceptingRow).outcome =
      .rejectPnl :=
  (c7_pnl_monotone defaultConfig acceptingRow (JQ.ofInt 25000) (JQ.ofInt 2000000)
      (by decide) (by decide)).2 (by decide) (by decide)

/-- C8: the progressive scroll loop is total and bounded: it never
issues more scroll attempts than its configured cap, and on a page
state where the target row never materializes it stops after exactly
the cap — 5 in the main scraper, 20 in the exploratory one — reporting
the row absent, which the row pipeline turns into the no-increment
row-not-found exit. -/
theorem c8_scroll_bound :
    (∀ (present : Nat → Bool) (maxAttempts : Nat),
       (scrollLoop present maxAttempts).2 ≤ maxAttempts) ∧
    (∀ present : Nat → Bool, (∀ n, present n = false) →
       scrollLoop present mainMaxScrollAttempts = (false, mainMaxScrollAttempts) ∧
       scrollLoop present exploratoryMaxScrollAttempts =
         (false, exploratoryMaxScrollAttempts)) ∧
    (∀ (cfg : Config) (inp : RowInput), (∀ n, inp.present n = false) →
       evalRow cfg inp = ⟨.rowNotFound, 0, false⟩) := by
  refine ⟨?_, ?_, ?_⟩
  · intro present maxAttempts
    have h := scrollLoopAux_le present maxAttempts 0
    simpa [scrollLoop] using h
  · intro present hp
    constructor
    · have h := scrollLoopAux_never present hp mainMaxScrollAttempts 0
      simpa [scrollLoop] using h
    · have h := scrollLoopAux_never present hp exploratoryMaxScrollAttempts 0
      simpa [scrollLoop] using h
  · intro cfg inp hp
    have h : scrollLoop inp.present mainMaxScrollAttempts =
        (false, mainMaxScrollAttempts) := by
      have h2 := scrollLoopAux_never inp.present hp mainMaxScrollAttempts 0
      simpa [scrollLoop] using h2
    simp [evalRow, h]

/-- C8 witness: the never-materializing page state, evaluated at both
configured caps. -/
theorem c8_scroll_bound_witness :
    scrollLoop (fun _ => false) mainMaxScrollAttempts = (false, mainMaxScrollAttempts) ∧
    scrollLoop (fun _ => false) exploratoryMaxScrollAttempts =
      (false, exploratoryMaxScrollAttempts) :=
  c8_scroll_bound.2.1 (fun _ => false) (fun _ => rfl)

/-- C9: trade-age classification gives the letter `s` absolute priority:
any age text whose trimmed form contains `s` anywhere lands in the
seconds bucket — including "45 mins" and "3 days" — because the branch
chain tests s, m, h, d, w in that order and only the first match
counts; "1m", which contains no `s`, falls through to the minutes
branch. -/
theorem c9_seconds_priority :
    (∀ raw : String, jsIncludesChar (jsTrim raw.toList) 's' = true →
       classifyAge raw = some .seconds) ∧
    classifyAge "45 mins" = some .seconds ∧
    classifyAge "3 days" = some .seconds ∧
    classifyAge "1m" = some .lessThan30m ∧
    classifyAge "2h" = some .moreThan2h := by
  refine ⟨?_, by decide, by decide, by decide, by decide⟩
  intro raw h
  simp only [String.toList] at h
  simp [classifyAge, h]

/-- C9 witness: the priority rule applied at "45 mins". -/
theorem c9_seconds_priority_witness :
    classifyAge "45 mins" = some .seconds :=
  c9_seconds_priority.1 "45 mins" (by decide)

/-- C10: with an empty trade list, or one in which no age text matches
any bucket token, every bucket count is 0, the dominant-seconds signal
is false (0 is not strictly greater than 0), and the timing gate can
never be the one that rejects the row. -/
theorem c10_empty_unclassifiable :
    dominantSeconds [] = false ∧
    (∀ ages : List String, (∀ t ∈ ages, classifyAge t = none) →
       dominantSeconds ages = false) ∧
    (∀ (cfg : Config) (inp : RowInput), (∀ t ∈ inp.ageTexts, classifyAge t = none) →
       (evalRow cfg inp).outcome ≠ .rejectTiming) := by
  have key : ∀ ages : List String, (∀ t ∈ ages, classifyAge t = none) →
      dominantSeconds ages = false := by
    intro ages h
    rw [Bool.eq_false_iff]
    intro hd
    rw [dominantSeconds_iff] at hd
    have hs : bucketCount .seconds ages = 0 := by
      rw [bucketCount, List.countP_eq_zero]
      intro t ht
      simp [h t ht]
    rw [hs] at hd
    exact Nat.not_lt_zero _ hd
  refine ⟨by decide, key, ?_⟩
  intro cfg inp h hc
  have hdom := evalRow_rejectTiming_dominant cfg inp hc
  rw [key inp.ageTexts h] at hdom
  simp at hdom

/-- C10 witness: a trade list whose single age text matches no bucket
token passes the timing gate. -/
theorem c10_empty_unclassifiable_witness :
    dominantSeconds ["???"] = false ∧
    (evalRow defaultConfig unclassifiableRow).outcome ≠ .rejectTiming :=
  ⟨c10_empty_unclassifiable.2.1 ["???"] (by decide),
   c10_empty_unclassifiable.2.2 defaultConfig unclassifiableRow (by decide)⟩
